import Mathlib

/-!
Shallow embedding of `import_rhcos.py`: an idempotent pipeline that resolves
an RHCOS artifact version for an OpenShift release, downloads and decompresses
the disk image, stages it in S3, imports it as an EBS snapshot (polled async
task), and registers a public AMI.  External effects (HTTP, filesystem, S3,
EC2) are modelled by explicit state passing over a `World` plus an `Effects`
counter record; fallible operations return `Except String`.
-/

namespace RhcosImport

/-- An EBS snapshot as seen through `describe_snapshots`: its id and tags. -/
structure Snapshot where
  sid : String
  tags : List (String × String)
deriving DecidableEq, Repr

/-- An AMI as seen through `describe_images`: id, name and whether the
`all` launch-permission group has been added. -/
structure Image where
  iid : String
  name : String
  isPublic : Bool
deriving DecidableEq, Repr

/-- The observable external state: local files (path to byte size), keys in
the target S3 bucket, caller-owned snapshots and caller-owned images. -/
structure World where
  localFiles : List (String × Nat)
  s3Keys : List String
  snapshots : List Snapshot
  images : List Image
deriving DecidableEq, Repr

/-- Counters of the side-effecting calls the pipeline makes, used to state
idempotence ("zero upload calls", "no new import task", ...). -/
structure Effects where
  fetches : Nat
  uploads : Nat
  importTasks : Nat
  statusChecks : Nat
  sleptSeconds : Nat
  registers : Nat
  modifyAttrs : Nat
  decompresses : Nat
deriving DecidableEq, Repr

/-- The environment's responses: the size of the artifact download, the size
of its decompressed form, the polled import-task status at each poll, the
snapshot id the task reports on completion, the id EC2 assigns to a freshly
registered image, and whether `modify_image_attribute` fails. -/
structure Env where
  httpBodySize : Nat
  gunzipSize : Nat
  importStatus : Nat → String
  importSnapshotId : Nat → String
  newImageId : String
  modifyAttrFails : Bool

/-- The fields of an `OpenShiftRelease` job that the pipeline stages read,
with the artifact version already resolved. -/
structure Job where
  version : String
  rhcosVersion : String
  s3Bucket : String
  tmpDir : String
deriving DecidableEq, Repr

/-- The derived filename `'rhcos-{}-aws.x86_64.vmdk'.format(self.rhcos_version)`. -/
def Job.filename (j : Job) : String :=
  "rhcos-" ++ j.rhcosVersion ++ "-aws.x86_64.vmdk"

/-- The staging path `os.path.join(tempfile.gettempdir(), self.rhcos_filename)`. -/
def Job.path (j : Job) : String :=
  j.tmpDir ++ "/" ++ j.filename

/-- Lookup of a local file's size by exact path (`os.path.exists` /
`os.path.getsize`). -/
def getFile : List (String × Nat) → String → Option Nat
  | [], _ => none
  | (q, sz) :: fs, p => if q = p then some sz else getFile fs p

/-- Create or overwrite a local file. -/
def setFile (fs : List (String × Nat)) (p : String) (sz : Nat) :
    List (String × Nat) :=
  (p, sz) :: fs.filter (fun e => !(e.1 == p))

/-- Delete a local file, as `os.remove` does. -/
def removeFile (fs : List (String × Nat)) (p : String) :
    List (String × Nat) :=
  fs.filter (fun e => !(e.1 == p))

/-- Drop `pre` from the front of `l`, or fail if `l` does not start with it. -/
def dropPre : List Char → List Char → Option (List Char)
  | [], rest => some rest
  | _ :: _, [] => none
  | p :: ps, c :: cs => if p = c then dropPre ps cs else none

/-- Whether key `k` starts with `pre` (S3 `Prefix` filtering). -/
def keyMatches (pre k : String) : Bool :=
  (dropPre pre.toList k.toList).isSome

/-- The count `list_objects_v2(Bucket=…, Prefix=…).get('KeyCount', 0)`. -/
def listObjectsKeyCount (keys : List String) (pre : String) : Nat :=
  (keys.filter (keyMatches pre)).length

/-- The 100 MiB integrity threshold: `rhcos_size / (1024*1024) < 100` on a
`Nat` byte count is exactly `size < 100 * 1024 * 1024` (division by the power
of two `2^20` is exact in double precision for any file size below `2^53`). -/
def minSizeBytes : Nat := 100 * 1024 * 1024

/-- Embeds `OpenShiftRelease.download_rhcos` ("fetch"): skip when the decompressed
file already exists; otherwise GET the artifact, write `path ++ ".gz"`,
fail fatally when the download is under 100 MiB, else decompress to `path`
and remove the compressed intermediate. -/
def download_rhcos (env : Env) (j : Job) (w : World) (eff : Effects) :
    Except String Unit × World × Effects :=
  if (getFile w.localFiles j.path).isSome then
    (Except.ok (), w, eff)
  else
    let eff := { eff with fetches := eff.fetches + 1 }
    let gzPath := j.path ++ ".gz"
    let w := { w with localFiles := setFile w.localFiles gzPath env.httpBodySize }
    if env.httpBodySize < minSizeBytes then
      (Except.error "RHCOS file size too small", w, eff)
    else
      let eff := { eff with decompresses := eff.decompresses + 1 }
      let w := { w with localFiles := setFile w.localFiles j.path env.gunzipSize }
      let w := { w with localFiles := removeFile w.localFiles gzPath }
      (Except.ok (), w, eff)

/-- Embeds `OpenShiftRelease.upload_rhcos` ("stage"): skip when any object in the
bucket has the filename as key prefix; otherwise fetch, upload the staged
file under key = filename, and remove the local file. -/
def upload_rhcos (env : Env) (j : Job) (w : World) (eff : Effects) :
    Except String Unit × World × Effects :=
  if listObjectsKeyCount w.s3Keys j.filename > 0 then
    (Except.ok (), w, eff)
  else
    match download_rhcos env j w eff with
    | (Except.error e, w, eff) => (Except.error e, w, eff)
    | (Except.ok _, w, eff) =>
      let eff := { eff with uploads := eff.uploads + 1 }
      let w := { w with s3Keys := w.s3Keys ++ [j.filename] }
      let w := { w with localFiles := removeFile w.localFiles j.path }
      (Except.ok (), w, eff)

/-- The listing `describe_snapshots(Filters=[tag:rhcos_version == v], OwnerIds=['self'])`. -/
def describeSnapshotsByTag (snaps : List Snapshot) (v : String) :
    List Snapshot :=
  snaps.filter (fun s => s.tags.contains ("rhcos_version", v))

/-- The poll loop of `import_snapshot`: check the task status; on
`"completed"` tag the reported snapshot with `rhcos_version` and return its
id; otherwise add 10 to `time_elapsed`, sleep 10 seconds, and raise once
`time_elapsed > 60 * 5`. -/
def pollLoop (env : Env) (rv : String) (w : World) (eff : Effects)
    (n elapsed : Nat) : Except String String × World × Effects :=
  let eff := { eff with statusChecks := eff.statusChecks + 1 }
  if env.importStatus n = "completed" then
    let sid := env.importSnapshotId n
    let w := { w with snapshots := w.snapshots ++ [⟨sid, [("rhcos_version", rv)]⟩] }
    (Except.ok sid, w, eff)
  else
    let e := elapsed + 10
    let eff := { eff with sleptSeconds := eff.sleptSeconds + 10 }
    if 60 * 5 < e then
      (Except.error "import task has not completed after 5 minutes", w, eff)
    else
      pollLoop env rv w eff (n + 1) e
termination_by 301 - elapsed
decreasing_by
  simp_wf
  omega

/-- Embeds `OpenShiftRelease.import_snapshot`: stage, then return the first
caller-owned snapshot tagged `rhcos_version == rv` if any exists, else
submit an import task and poll it. -/
def import_snapshot (env : Env) (j : Job) (w : World) (eff : Effects) :
    Except String String × World × Effects :=
  match upload_rhcos env j w eff with
  | (Except.error e, w, eff) => (Except.error e, w, eff)
  | (Except.ok _, w, eff) =>
    match describeSnapshotsByTag w.snapshots j.rhcosVersion with
    | s :: _ => (Except.ok s.sid, w, eff)
    | [] =>
      let eff := { eff with importTasks := eff.importTasks + 1 }
      pollLoop env j.rhcosVersion w eff 0 0

/-- The listing `describe_images(Filters=[name == n], Owners=['self'])`. -/
def describeImagesByName (imgs : List Image) (n : String) : List Image :=
  imgs.filter (fun i => i.name == n)

/-- Set an image's launch permission to public by id. -/
def makePublic (imgs : List Image) (iid : String) : List Image :=
  imgs.map (fun i => if i.iid == iid then { i with isPublic := true } else i)

/-- Embeds `OpenShiftRelease.register_image`: obtain the snapshot id, then return
the first caller-owned image named `rhcos-<rv>` when one exists; otherwise
register a new (private) image from the snapshot and attempt to add the
`all` launch-permission group. -/
def register_image (env : Env) (j : Job) (w : World) (eff : Effects) :
    Except String String × World × Effects :=
  match import_snapshot env j w eff with
  | (Except.error e, w, eff) => (Except.error e, w, eff)
  | (Except.ok _sid, w, eff) =>
    match describeImagesByName w.images ("rhcos-" ++ j.rhcosVersion) with
    | i :: _ => (Except.ok i.iid, w, eff)
    | [] =>
      let eff := { eff with registers := eff.registers + 1 }
      let w := { w with images :=
        w.images ++ [⟨env.newImageId, "rhcos-" ++ j.rhcosVersion, false⟩] }
      let eff := { eff with modifyAttrs := eff.modifyAttrs + 1 }
      if env.modifyAttrFails then
        (Except.error "modify_image_attribute failed", w, eff)
      else
        let w := { w with images := makePublic w.images env.newImageId }
        (Except.ok env.newImageId, w, eff)

/-! ### Release set discovery (`__main__`) -/

/-- Splitting on dots over a list of characters: cut at every `'.'`. -/
def splitDotsAux : List Char → List Char → List (List Char)
  | [], acc => [acc.reverse]
  | c :: cs, acc =>
    if c = '.' then acc.reverse :: splitDotsAux cs []
    else splitDotsAux cs (c :: acc)

/-- Python `version.split('.')`. -/
def splitDots (s : String) : List String :=
  (splitDotsAux s.toList []).map String.mk

/-- Python `int(s)` on an all-digit string (the only strings it is applied
to, because the regex filter has already accepted them). -/
def digitsToNat (l : List Char) : Nat :=
  l.foldl (fun n c => n * 10 + (c.toNat - 48)) 0

/-- A non-empty all-digit string (one `\d+` component of the version regex). -/
def allDigits (s : String) : Bool :=
  decide (0 < s.length) && s.toList.all Char.isDigit

/-- The check `re.search(r'^\d+\.\d+\.\d+$', version)`: exactly three non-empty
all-digit dot-separated components. -/
def isReleaseVersion (v : String) : Bool :=
  match splitDots v with
  | [a, b, c] => allDigits a && allDigits b && allDigits c
  | _ => false

/-- The major.minor form `'.'.join(version.split('.')[0:2])`. -/
def majMin (v : String) : String :=
  String.intercalate "." ((splitDots v).take 2)

/-- The sort key `list(map(int, s.split('.')))`. -/
def verKey (v : String) : List Nat :=
  (splitDots v).map (fun s => digitsToNat s.toList)

/-- Python's lexicographic `<` on lists of ints. -/
def natListLt : List Nat → List Nat → Bool
  | [], [] => false
  | [], _ :: _ => true
  | _ :: _, [] => false
  | a :: as, b :: bs => if a < b then true else if b < a then false else natListLt as bs

/-- Insert into a descending-sorted list, after every element with a ≥ key
(stable, like `list.sort(reverse=True)`). -/
def insertDesc (x : String) : List String → List String
  | [] => [x]
  | y :: ys =>
    if natListLt (verKey y) (verKey x) then x :: y :: ys else y :: insertDesc x ys

/-- Embeds `openshift_versions.sort(reverse=True, key=lambda s: list(map(int, s.split('.'))))`:
stable descending sort by numeric tuple. -/
def sortDesc (l : List String) : List String :=
  l.foldl (fun acc x => insertDesc x acc) []

/-- The `__main__` collection loop: for each requested channel prefix, take
the upgrade graph's node versions, keep those whose major.minor is one of
the requested prefixes and that are strict `major.minor.patch`, appending
each version only on first occurrence. -/
def collectVersions (graph : String → List String) (prefs : List String) :
    List String :=
  prefs.foldl (fun acc i =>
    (graph i).foldl (fun acc version =>
      if prefs.contains (majMin version) && isReleaseVersion version then
        if acc.contains version then acc else acc ++ [version]
      else acc) acc) []

/-- Discovery: collect, dedup, then sort numerically descending. -/
def discoverVersions (graph : String → List String) (prefs : List String) :
    List String :=
  sortDesc (collectVersions graph prefs)

/-- The per-version loop of `__main__`: run each version's pipeline inside a
`try/except Exception` that logs the outcome and continues; the recorded
list pairs each version with its pipeline result. -/
def mainLoop
    (pipeline : String → World → Effects → Except String String × World × Effects) :
    List String → World → Effects →
      World × Effects × List (String × Except String String)
  | [], w, eff => (w, eff, [])
  | v :: rest, w, eff =>
    let r := pipeline v w eff
    let t := mainLoop pipeline rest r.2.1 r.2.2
    (t.1, t.2.1, (v, r.1) :: t.2.2)

/-- The whole `__main__` body after discovery: the per-version loop followed
by falling off the end of the script, so the process exit code is 0. -/
def runMain
    (pipeline : String → World → Effects → Except String String × World × Effects)
    (versions : List String) (w : World) (eff : Effects) :
    Nat × World × Effects × List (String × Except String String) :=
  let t := mainLoop pipeline versions w eff
  (0, t.1, t.2.1, t.2.2)

/-! ### Lazy memoized properties of `OpenShiftRelease` (resolver & locator) -/

/-- The `_data`, `_rhcos_version`, `_rhcos_filename`, `_rhcos_path`,
`_rhcos_url` attributes, all initialised to `None` by `__init__`. -/
structure ReleaseFields where
  sData : Option String
  sVersion : Option String
  sFilename : Option String
  sPath : Option String
  sUrl : Option String
deriving DecidableEq, Repr

/-- The attribute state right after `__init__`. -/
def initFields : ReleaseFields := ⟨none, none, none, none, none⟩

/-- How many times the release-metadata HTTP GET and the `re.search` over it
have run. -/
structure MemoCtr where
  fetches : Nat
  searches : Nat
deriving DecidableEq, Repr

/-- Python truthiness of an attribute holding `None` or a string:
`not self._x` is true exactly on `None` and `""`. -/
def truthy : Option String → Bool
  | none => false
  | some s => !(s == "")

/-- Python `'{}'.format(x)` for `x` a string or `None`. -/
def pyStr : Option String → String
  | none => "None"
  | some s => s

/-- A character of the regex class `[\d\.\-]`. -/
def isVerChar (c : Char) : Bool :=
  c.isDigit || c == '.' || c == '-'

/-- Greedy run of `[\d\.\-]+` characters. -/
def takeVerChars : List Char → List Char
  | [] => []
  | c :: cs => if isVerChar c then c :: takeVerChars cs else []

/-- Leftmost match of `re.search(r'machine-os ([\d\.\-]+)', text)`: at each
position try the literal `"machine-os "` followed by a non-empty greedy
class run; the captured group is that run. -/
def findMachineOsAux : List Char → Option String
  | [] => none
  | c :: cs =>
    match dropPre "machine-os ".toList (c :: cs) with
    | some rest =>
      let g := takeVerChars rest
      if g.isEmpty then findMachineOsAux cs else some (String.mk g)
    | none => findMachineOsAux cs

/-- The search `re.search(r'machine-os ([\d\.\-]+)', text)`, returning the captured
group of the first match. -/
def findMachineOs (s : String) : Option String :=
  findMachineOsAux s.toList

/-- The `data` property: return `_data` when truthy, else GET `release.txt`
(the oracle `body`), store and return it.  An empty body is falsy, so it is
re-fetched on every access. -/
def getData (body : String) (f : ReleaseFields) (c : MemoCtr) :
    String × ReleaseFields × MemoCtr :=
  if truthy f.sData then (pyStr f.sData, f, c)
  else
    (body, { f with sData := some body },
     { c with fetches := c.fetches + 1 })

/-- The `rhcos_version` property: return `_rhcos_version` when truthy, else
search `self.data` for the token; on no match log and return `None` without
setting the attribute, else store and return the captured group. -/
def getRhcosVersion (body : String) (f : ReleaseFields) (c : MemoCtr) :
    Option String × ReleaseFields × MemoCtr :=
  if truthy f.sVersion then (f.sVersion, f, c)
  else
    let d := getData body f c
    let c1 := { d.2.2 with searches := d.2.2.searches + 1 }
    match findMachineOs d.1 with
    | none => (none, d.2.1, c1)
    | some v => (some v, { d.2.1 with sVersion := some v }, c1)

/-- The `rhcos_filename` property:
`'rhcos-{}-aws.x86_64.vmdk'.format(self.rhcos_version)` — note that an
unresolved version formats as the string `"None"`. -/
def getRhcosFilename (body : String) (f : ReleaseFields) (c : MemoCtr) :
    String × ReleaseFields × MemoCtr :=
  if truthy f.sFilename then (pyStr f.sFilename, f, c)
  else
    let r := getRhcosVersion body f c
    let fn := "rhcos-" ++ pyStr r.1 ++ "-aws.x86_64.vmdk"
    (fn, { r.2.1 with sFilename := some fn }, r.2.2)

/-- The `rhcos_path` property: `os.path.join(tempfile.gettempdir(), filename)`. -/
def getRhcosPath (body tmpDir : String) (f : ReleaseFields) (c : MemoCtr) :
    String × ReleaseFields × MemoCtr :=
  if truthy f.sPath then (pyStr f.sPath, f, c)
  else
    let r := getRhcosFilename body f c
    let p := tmpDir ++ "/" ++ r.1
    (p, { r.2.1 with sPath := some p }, r.2.2)

/-- The base storage URL literal of the `rhcos_url` property. -/
def urlBase : String :=
  "https://releases-art-rhcos.svc.ci.openshift.org/art/storage/releases"

/-- The `rhcos_url` property: `'/'.join([base, 'rhcos-<maj.min>',
self.rhcos_version, 'x86_64', '<filename>.gz'])`.  When the version is
unresolved, `self.rhcos_version` is `None` and `str.join` raises
`TypeError`, so nothing is cached. -/
def getRhcosUrl (body releaseVersion : String) (f : ReleaseFields)
    (c : MemoCtr) : Except String String × ReleaseFields × MemoCtr :=
  if truthy f.sUrl then (Except.ok (pyStr f.sUrl), f, c)
  else
    let r := getRhcosVersion body f c
    let r2 := getRhcosFilename body r.2.1 r.2.2
    match r.1 with
    | none => (Except.error "TypeError: sequence item 2: expected str instance, NoneType found", r2.2.1, r2.2.2)
    | some vs =>
      let url := urlBase ++ "/" ++ ("rhcos-" ++ majMin releaseVersion) ++ "/"
        ++ vs ++ "/" ++ "x86_64" ++ "/" ++ (r2.1 ++ ".gz")
      (Except.ok url, { r2.2.1 with sUrl := some url }, r2.2.2)

/-! ### Concrete fixtures used to instantiate the theorems -/

/-- All effect counters at zero. -/
def effZero : Effects := ⟨0, 0, 0, 0, 0, 0, 0, 0⟩

/-- An environment whose import task never reports "completed". -/
def envStall : Env := ⟨5, 0, fun _ => "active", fun _ => "snap-1", "ami-1", false⟩

/-- An environment whose import task completes on the first poll. -/
def envDone : Env := ⟨5, 0, fun _ => "completed", fun _ => "snap-1", "ami-1", false⟩

/-- Like `envDone` but `modify_image_attribute` fails. -/
def envDoneFail : Env := ⟨5, 0, fun _ => "completed", fun _ => "snap-1", "ami-1", true⟩

/-- A job with release 4.7.7 whose artifact version is resolved. -/
def jobA : Job := ⟨"4.7.7", "4.7.7", "vmimport-bucket", "/tmp"⟩

/-- A world where the artifact object is already staged in the bucket. -/
def wStaged : World := ⟨[], ["rhcos-4.7.7-aws.x86_64.vmdk"], [], []⟩

/-- A snapshot already tagged with the job's artifact version. -/
def snapA : Snapshot := ⟨"snap-0", [("rhcos_version", "4.7.7")]⟩

/-- A world where the object is staged and a tagged snapshot exists. -/
def wSnap : World := ⟨[], ["rhcos-4.7.7-aws.x86_64.vmdk"], [snapA], []⟩

/-- An image with the derived name already registered and public. -/
def imgA : Image := ⟨"ami-0", "rhcos-4.7.7", true⟩

/-- A world with staged object, tagged snapshot and existing image. -/
def wImg : World := ⟨[], ["rhcos-4.7.7-aws.x86_64.vmdk"], [snapA], [imgA]⟩

/-- A world with nothing staged. -/
def wEmpty : World := ⟨[], [], [], []⟩

/-! ### Basic lemmas -/

theorem dropPre_self (l : List Char) : dropPre l l = some [] := by
  induction l with
  | nil => rfl
  | cons c cs ih => simp [dropPre, ih]

theorem keyMatches_self (s : String) : keyMatches s s = true := by
  simp [keyMatches, dropPre_self]

theorem listObjectsKeyCount_pos (keys : List String) (k : String)
    (hk : k ∈ keys) : 0 < listObjectsKeyCount keys k := by
  have hm : k ∈ keys.filter (keyMatches k) :=
    List.mem_filter.mpr ⟨hk, keyMatches_self k⟩
  unfold listObjectsKeyCount
  exact List.length_pos.mpr (fun h => by simp [h] at hm)

theorem getFile_filter_ne (fs : List (String × Nat)) (q p : String)
    (h : q ≠ p) :
    getFile (fs.filter (fun e => !(e.1 == q))) p = getFile fs p := by
  induction fs with
  | nil => rfl
  | cons a t ih =>
    by_cases ha : a.1 = q
    · have : (!(a.1 == q)) = false := by simp [ha]
      rw [List.filter_cons, this]
      simp only [Bool.false_eq_true, if_false]
      rw [ih]
      have hap : ¬ a.1 = p := by rw [ha]; exact h
      cases a with
      | mk a1 a2 => simp only [getFile, if_neg hap]
    · have : (!(a.1 == q)) = true := by simp [ha]
      rw [List.filter_cons, this]
      simp only [if_true]
      cases a with
      | mk a1 a2 =>
        by_cases hap : a1 = p
        · simp only [getFile, if_pos hap]
        · simp only [getFile, if_neg hap]; exact ih

theorem getFile_setFile_ne (fs : List (String × Nat)) (q p : String)
    (sz : Nat) (h : q ≠ p) :
    getFile (setFile fs q sz) p = getFile fs p := by
  unfold setFile
  simp only [getFile, if_neg h]
  exact getFile_filter_ne fs q p h

theorem path_ne_gz (p : String) : p ++ ".gz" ≠ p := by
  intro h
  have hl := congrArg String.length h
  rw [String.length_append] at hl
  simp at hl
  exact absurd hl (by decide)

/-! ### Frame lemmas: what each stage leaves untouched -/

theorem download_rhcos_frame (env : Env) (j : Job) (w : World)
    (eff : Effects) :
    (download_rhcos env j w eff).2.1.s3Keys = w.s3Keys ∧
    (download_rhcos env j w eff).2.1.snapshots = w.snapshots ∧
    (download_rhcos env j w eff).2.1.images = w.images ∧
    (download_rhcos env j w eff).2.2.uploads = eff.uploads ∧
    (download_rhcos env j w eff).2.2.importTasks = eff.importTasks ∧
    (download_rhcos env j w eff).2.2.statusChecks = eff.statusChecks ∧
    (download_rhcos env j w eff).2.2.sleptSeconds = eff.sleptSeconds ∧
    (download_rhcos env j w eff).2.2.registers = eff.registers ∧
    (download_rhcos env j w eff).2.2.modifyAttrs = eff.modifyAttrs := by
  unfold download_rhcos
  split
  · simp
  · split <;> simp

theorem upload_rhcos_frame (env : Env) (j : Job) (w : World)
    (eff : Effects) :
    (upload_rhcos env j w eff).2.1.snapshots = w.snapshots ∧
    (upload_rhcos env j w eff).2.1.images = w.images ∧
    (upload_rhcos env j w eff).2.2.importTasks = eff.importTasks ∧
    (upload_rhcos env j w eff).2.2.statusChecks = eff.statusChecks ∧
    (upload_rhcos env j w eff).2.2.sleptSeconds = eff.sleptSeconds ∧
    (upload_rhcos env j w eff).2.2.registers = eff.registers ∧
    (upload_rhcos env j w eff).2.2.modifyAttrs = eff.modifyAttrs := by
  have hd := download_rhcos_frame env j w eff
  unfold upload_rhcos
  split
  · simp
  · rcases hdl : download_rhcos env j w eff with ⟨r, w1, eff1⟩
    rw [hdl] at hd
    rcases r with e | u <;> simp_all

/-! ### Helper lemmas shared by the claim proofs -/

theorem mainLoop_processes_all
    (pipeline : String → World → Effects →
      Except String String × World × Effects) :
    ∀ (versions : List String) (w : World) (eff : Effects),
      ((mainLoop pipeline versions w eff).2.2).map Prod.fst = versions := by
  intro versions
  induction versions with
  | nil => intro w eff; rfl
  | cons v rest ih =>
    intro w eff
    simp only [mainLoop, List.map_cons, List.cons.injEq, true_and]
    exact ih _ _

theorem pollLoop_frame_aux (env : Env) (rv : String) :
    ∀ (d n elapsed : Nat) (w : World) (eff : Effects),
      310 ≤ elapsed + 10 * d →
      (pollLoop env rv w eff n elapsed).2.1.s3Keys = w.s3Keys ∧
      (pollLoop env rv w eff n elapsed).2.1.images = w.images ∧
      (pollLoop env rv w eff n elapsed).2.1.localFiles = w.localFiles ∧
      (pollLoop env rv w eff n elapsed).2.2.uploads = eff.uploads ∧
      (pollLoop env rv w eff n elapsed).2.2.fetches = eff.fetches ∧
      (pollLoop env rv w eff n elapsed).2.2.importTasks = eff.importTasks ∧
      (pollLoop env rv w eff n elapsed).2.2.registers = eff.registers ∧
      (pollLoop env rv w eff n elapsed).2.2.modifyAttrs = eff.modifyAttrs := by
  intro d
  induction d with
  | zero =>
    intro n elapsed w eff hb
    unfold pollLoop
    split
    · simp
    · have hgt : 60 * 5 < elapsed + 10 := by omega
      rw [if_pos hgt]
      simp
  | succ d ih =>
    intro n elapsed w eff hb
    unfold pollLoop
    split
    · simp
    · by_cases hgt : 60 * 5 < elapsed + 10
      · rw [if_pos hgt]; simp
      · rw [if_neg hgt]
        have := ih (n + 1) (elapsed + 10)
          { w with snapshots := w.snapshots }
          { { eff with statusChecks := eff.statusChecks + 1 } with
              sleptSeconds := eff.sleptSeconds + 10 } (by omega)
        simpa using this

theorem pollLoop_frame (env : Env) (rv : String) (n elapsed : Nat)
    (w : World) (eff : Effects) :
    (pollLoop env rv w eff n elapsed).2.1.s3Keys = w.s3Keys ∧
    (pollLoop env rv w eff n elapsed).2.1.images = w.images ∧
    (pollLoop env rv w eff n elapsed).2.1.localFiles = w.localFiles ∧
    (pollLoop env rv w eff n elapsed).2.2.uploads = eff.uploads ∧
    (pollLoop env rv w eff n elapsed).2.2.fetches = eff.fetches ∧
    (pollLoop env rv w eff n elapsed).2.2.importTasks = eff.importTasks ∧
    (pollLoop env rv w eff n elapsed).2.2.registers = eff.registers ∧
    (pollLoop env rv w eff n elapsed).2.2.modifyAttrs = eff.modifyAttrs :=
  pollLoop_frame_aux env rv 31 n elapsed w eff (by omega)

theorem pollLoop_ok_snapshots_aux (env : Env) (rv : String) :
    ∀ (d n elapsed : Nat) (w : World) (eff : Effects) (r : String)
      (w1 : World) (eff1 : Effects),
      310 ≤ elapsed + 10 * d →
      pollLoop env rv w eff n elapsed = (Except.ok r, w1, eff1) →
      w1.snapshots = w.snapshots ++ [⟨r, [("rhcos_version", rv)]⟩] := by
  intro d
  induction d with
  | zero =>
    intro n elapsed w eff r w1 eff1 hb h
    unfold pollLoop at h
    split at h
    · rw [Prod.mk.injEq, Prod.mk.injEq] at h
      obtain ⟨hr, hw, _⟩ := h
      rw [Except.ok.injEq] at hr
      rw [← hw, hr]
    · have hgt : 60 * 5 < elapsed + 10 := by omega
      rw [if_pos hgt] at h
      exact absurd (congrArg Prod.fst h) (by simp)
  | succ d ih =>
    intro n elapsed w eff r w1 eff1 hb h
    unfold pollLoop at h
    split at h
    · rw [Prod.mk.injEq, Prod.mk.injEq] at h
      obtain ⟨hr, hw, _⟩ := h
      rw [Except.ok.injEq] at hr
      rw [← hw, hr]
    · by_cases hgt : 60 * 5 < elapsed + 10
      · rw [if_pos hgt] at h
        exact absurd (congrArg Prod.fst h) (by simp)
      · rw [if_neg hgt] at h
        exact ih (n + 1) (elapsed + 10) _ _ r w1 eff1 (by omega) h

theorem pollLoop_ok_snapshots (env : Env) (rv : String) (w : World)
    (eff : Effects) (r : String) (w1 : World) (eff1 : Effects)
    (h : pollLoop env rv w eff 0 0 = (Except.ok r, w1, eff1)) :
    w1.snapshots = w.snapshots ++ [⟨r, [("rhcos_version", rv)]⟩] :=
  pollLoop_ok_snapshots_aux env rv 31 0 0 w eff r w1 eff1 (by omega) h

theorem pollLoop_timeout (env : Env) (rv : String)
    (h : ∀ n, env.importStatus n ≠ "completed") :
    ∀ (d : Nat), 1 ≤ d → ∀ (n elapsed : Nat) (w : World) (eff : Effects),
      elapsed + 10 * d = 310 →
      pollLoop env rv w eff n elapsed =
        (Except.error "import task has not completed after 5 minutes", w,
         { eff with statusChecks := eff.statusChecks + d,
                    sleptSeconds := eff.sleptSeconds + 10 * d }) := by
  intro d
  induction d with
  | zero => intro h0; exact absurd h0 (by omega)
  | succ d ih =>
    intro _ n elapsed w eff helapsed
    unfold pollLoop
    rw [if_neg (h n)]
    by_cases hd : d = 0
    · subst hd
      have he : elapsed = 300 := by omega
      subst he
      norm_num
    · have h1 : 1 ≤ d := Nat.one_le_iff_ne_zero.mpr hd
      have hgt : ¬ (60 * 5 < elapsed + 10) := by omega
      rw [if_neg hgt]
      rw [ih h1 (n + 1) (elapsed + 10) w _ (by omega)]
      simp only [Prod.mk.injEq, Effects.mk.injEq, true_and, and_true]
      omega

theorem upload_rhcos_ok_key (env : Env) (j : Job) (w : World) (eff : Effects)
    (w1 : World) (eff1 : Effects)
    (h : upload_rhcos env j w eff = (Except.ok (), w1, eff1)) :
    0 < listObjectsKeyCount w1.s3Keys j.filename := by
  unfold upload_rhcos at h
  by_cases hc : listObjectsKeyCount w.s3Keys j.filename > 0
  · rw [if_pos hc] at h
    simp only [Prod.mk.injEq] at h
    rw [← h.2.1]
    exact hc
  · rw [if_neg hc] at h
    rcases hdl : download_rhcos env j w eff with ⟨rd, wd, effd⟩
    rw [hdl] at h
    rcases rd with e | u
    · exact absurd (congrArg Prod.fst h) (by simp)
    · simp only [Prod.mk.injEq] at h
      apply listObjectsKeyCount_pos
      rw [← h.2.1]
      exact List.mem_append.mpr (Or.inr (List.mem_singleton.mpr rfl))

theorem import_snapshot_frame (env : Env) (j : Job) (w : World)
    (eff : Effects) :
    (import_snapshot env j w eff).2.1.images = w.images ∧
    (import_snapshot env j w eff).2.2.registers = eff.registers ∧
    (import_snapshot env j w eff).2.2.modifyAttrs = eff.modifyAttrs := by
  have hup := upload_rhcos_frame env j w eff
  unfold import_snapshot
  rcases hdl : upload_rhcos env j w eff with ⟨r, w1, eff1⟩
  rw [hdl] at hup
  rcases r with e | u
  · simpa using ⟨hup.2.1, hup.2.2.2.2.2.1, hup.2.2.2.2.2.2⟩
  · cases hds : describeSnapshotsByTag w1.snapshots j.rhcosVersion with
    | cons s t =>
      simpa [hds] using ⟨hup.2.1, hup.2.2.2.2.2.1, hup.2.2.2.2.2.2⟩
    | nil =>
      have hpf := pollLoop_frame env j.rhcosVersion 0 0 w1
        { eff1 with importTasks := eff1.importTasks + 1 }
      simp only [hds]
      refine ⟨?_, ?_, ?_⟩
      · rw [hpf.2.1, hup.2.1]
      · rw [hpf.2.2.2.2.2.2.1]
        exact hup.2.2.2.2.2.1
      · rw [hpf.2.2.2.2.2.2.2]
        exact hup.2.2.2.2.2.2

theorem import_snapshot_ok_state (env : Env) (j : Job) (w : World)
    (eff : Effects) (r : String) (w1 : World) (eff1 : Effects)
    (h : import_snapshot env j w eff = (Except.ok r, w1, eff1)) :
    describeSnapshotsByTag w1.snapshots j.rhcosVersion ≠ [] ∧
    0 < listObjectsKeyCount w1.s3Keys j.filename := by
  unfold import_snapshot at h
  rcases hdl : upload_rhcos env j w eff with ⟨ru, wu, effu⟩
  rw [hdl] at h
  rcases ru with e | u
  · exact absurd (congrArg Prod.fst h) (by simp)
  · cases u
    simp only [] at h
    have hk : 0 < listObjectsKeyCount wu.s3Keys j.filename :=
      upload_rhcos_ok_key env j w eff wu effu hdl
    cases hds : describeSnapshotsByTag wu.snapshots j.rhcosVersion with
    | cons s t =>
      rw [hds] at h
      simp only [Prod.mk.injEq] at h
      rw [← h.2.1]
      exact ⟨by rw [hds]; exact List.cons_ne_nil s t, hk⟩
    | nil =>
      rw [hds] at h
      simp only [] at h
      have hsnap := pollLoop_ok_snapshots env j.rhcosVersion wu
        { effu with importTasks := effu.importTasks + 1 } r w1 eff1 h
      have hfr := pollLoop_frame env j.rhcosVersion 0 0 wu
        { effu with importTasks := effu.importTasks + 1 }
      rw [h] at hfr
      constructor
      · rw [hsnap]
        simp [describeSnapshotsByTag, List.filter_append]
      · rw [hfr.1]
        exact hk

theorem describeImagesByName_append (a b : List Image) (n : String) :
    describeImagesByName (a ++ b) n =
      describeImagesByName a n ++ describeImagesByName b n := by
  simp [describeImagesByName, List.filter_append]

theorem describeImagesByName_matching_singleton (i : Image) (n : String)
    (hn : i.name = n) : describeImagesByName [i] n = [i] := by
  simp [describeImagesByName, hn]

/-! ### Claim theorems -/

/-- Claim C1: if the import task's polled status never equals `"completed"`,
`import_snapshot` polls every 10 seconds (31 status checks, one 10-second
sleep after each) and fails fatally once the accumulated wait exceeds five
minutes: the accumulated wait at failure is 310 seconds — no less than the
300-second deadline, and no more than one 10-second poll interval past it. -/
theorem import_snapshot_timeout_bounds (env : Env) (j : Job) (w : World)
    (eff : Effects) (w1 : World) (eff1 : Effects)
    (hnever : ∀ n, env.importStatus n ≠ "completed")
    (hup : upload_rhcos env j w eff = (Except.ok (), w1, eff1))
    (hno : describeSnapshotsByTag w1.snapshots j.rhcosVersion = []) :
    import_snapshot env j w eff =
      (Except.error "import task has not completed after 5 minutes", w1,
       { eff1 with importTasks := eff1.importTasks + 1,
                   statusChecks := eff1.statusChecks + 31,
                   sleptSeconds := eff1.sleptSeconds + 310 }) ∧
    60 * 5 ≤ 310 ∧ 310 ≤ 60 * 5 + 10 := by
  refine ⟨?_, by omega, by omega⟩
  unfold import_snapshot
  rw [hup]
  simp only []
  rw [hno]
  simp only []
  rw [pollLoop_timeout env j.rhcosVersion hnever 31 (by omega) 0 0 w1 _ (by omega)]

/-- Witness for C1: a never-completing task on a staged world times out with
310 seconds of accumulated wait. -/
theorem import_snapshot_timeout_bounds_witness :
    import_snapshot envStall jobA wStaged effZero =
      (Except.error "import task has not completed after 5 minutes", wStaged,
       { effZero with importTasks := effZero.importTasks + 1,
                      statusChecks := effZero.statusChecks + 31,
                      sleptSeconds := effZero.sleptSeconds + 310 }) :=
  (import_snapshot_timeout_bounds envStall jobA wStaged effZero wStaged effZero
    (fun _ => by show ("active" : String) ≠ "completed"; decide)
    (by rfl) (by rfl)).1

/-- Claim C2: when the caller-owned snapshot listing filtered by tag
`rhcos_version == artifact_version` is non-empty, `import_snapshot` submits
no new snapshot-import task, and (provided the staging step returns)
returns the id of the first snapshot in that listing. -/
theorem import_snapshot_skips_existing (env : Env) (j : Job) (w : World)
    (eff : Effects) (s : Snapshot) (t : List Snapshot)
    (hsnap : describeSnapshotsByTag w.snapshots j.rhcosVersion = s :: t) :
    (import_snapshot env j w eff).2.2.importTasks = eff.importTasks ∧
    ∀ (w1 : World) (eff1 : Effects),
      upload_rhcos env j w eff = (Except.ok (), w1, eff1) →
      import_snapshot env j w eff = (Except.ok s.sid, w1, eff1) := by
  have hupfr := upload_rhcos_frame env j w eff
  constructor
  · unfold import_snapshot
    rcases hdl : upload_rhcos env j w eff with ⟨r, wu, effu⟩
    rw [hdl] at hupfr
    rcases r with e | u
    · simpa using hupfr.2.2.1
    · simp only []
      rw [hupfr.1, hsnap]
      simpa using hupfr.2.2.1
  · intro w1 eff1 hup
    rw [hup] at hupfr
    unfold import_snapshot
    rw [hup]
    simp only []
    rw [hupfr.1, hsnap]

/-- Witness for C2: with a tagged snapshot present and the object staged,
`import_snapshot` returns its id and submits no task. -/
theorem import_snapshot_skips_existing_witness :
    import_snapshot envDone jobA wSnap effZero =
      (Except.ok snapA.sid, wSnap, effZero) ∧
    (import_snapshot envDone jobA wSnap effZero).2.2.importTasks =
      effZero.importTasks := by
  have h := import_snapshot_skips_existing envDone jobA wSnap effZero snapA []
    (by rfl)
  exact ⟨h.2 wSnap effZero (by rfl), h.1⟩

/-- Claim C3: when an object whose key equals the derived filename is
already in the bucket, `upload_rhcos` (the stage step) returns immediately
with the world and all effect counters unchanged — zero upload calls and
zero fetch calls — and calling it twice does the same on both calls. -/
theorem stage_skips_existing_object (env : Env) (j : Job) (w : World)
    (eff : Effects) (hk : j.filename ∈ w.s3Keys) :
    upload_rhcos env j w eff = (Except.ok (), w, eff) ∧
    upload_rhcos env j (upload_rhcos env j w eff).2.1
      (upload_rhcos env j w eff).2.2 = (Except.ok (), w, eff) := by
  have h1 : upload_rhcos env j w eff = (Except.ok (), w, eff) := by
    unfold upload_rhcos
    rw [if_pos (listObjectsKeyCount_pos w.s3Keys j.filename hk)]
  refine ⟨h1, ?_⟩
  rw [h1]
  exact h1

/-- Witness for C3 on a staged world. -/
theorem stage_skips_existing_object_witness :
    upload_rhcos envDone jobA wStaged effZero =
      (Except.ok (), wStaged, effZero) ∧
    upload_rhcos envDone jobA (upload_rhcos envDone jobA wStaged effZero).2.1
      (upload_rhcos envDone jobA wStaged effZero).2.2 =
      (Except.ok (), wStaged, effZero) :=
  stage_skips_existing_object envDone jobA wStaged effZero (by decide)

/-- Claim C4: when a caller-owned image named `rhcos-<artifact_version>`
already exists, `register_image` registers no new image and touches no
launch permission, and (when the upstream snapshot import returns) returns
the first existing image's id. -/
theorem register_image_skips_existing (env : Env) (j : Job) (w : World)
    (eff : Effects) (i : Image) (t : List Image)
    (himg : describeImagesByName w.images ("rhcos-" ++ j.rhcosVersion) = i :: t) :
    (register_image env j w eff).2.2.registers = eff.registers ∧
    (register_image env j w eff).2.2.modifyAttrs = eff.modifyAttrs ∧
    ∀ (sid : String) (w1 : World) (eff1 : Effects),
      import_snapshot env j w eff = (Except.ok sid, w1, eff1) →
      register_image env j w eff = (Except.ok i.iid, w1, eff1) := by
  have hfr := import_snapshot_frame env j w eff
  unfold register_image
  rcases him : import_snapshot env j w eff with ⟨r, w1, eff1⟩
  rw [him] at hfr
  rcases r with e | sid
  · refine ⟨by simpa using hfr.2.1, by simpa using hfr.2.2, ?_⟩
    intro sid2 w2 eff2 hh
    exact absurd (congrArg Prod.fst hh) (by simp)
  · simp only []
    rw [hfr.1, himg]
    simp only []
    refine ⟨hfr.2.1, hfr.2.2, ?_⟩
    intro sid2 w2 eff2 hh
    simp only [Prod.mk.injEq, Except.ok.injEq] at hh
    rw [← hh.2.1, ← hh.2.2]

/-- Witness for C4: with the image present, `register_image` returns its id
and changes no register/permission counter. -/
theorem register_image_skips_existing_witness :
    register_image envDone jobA wImg effZero =
      (Except.ok imgA.iid, wImg, effZero) ∧
    (register_image envDone jobA wImg effZero).2.2.registers =
      effZero.registers ∧
    (register_image envDone jobA wImg effZero).2.2.modifyAttrs =
      effZero.modifyAttrs := by
  have h := register_image_skips_existing envDone jobA wImg effZero imgA []
    (by rfl)
  exact ⟨h.2.2 snapA.sid wImg effZero (by rfl), h.1, h.2.1⟩

/-- Claim C6: starting with no file at the local staging path, the fetch
(`download_rhcos`) fails if and only if the downloaded compressed file is
below 100 MiB; on failure it has attempted no decompression and leaves no
decompressed file at the staging path. -/
theorem fetch_integrity_threshold (env : Env) (j : Job) (w : World)
    (eff : Effects) (h : getFile w.localFiles j.path = none) :
    ((download_rhcos env j w eff).1.isOk = false ↔
      env.httpBodySize < minSizeBytes) ∧
    (env.httpBodySize < minSizeBytes →
      (download_rhcos env j w eff).1 =
        Except.error "RHCOS file size too small" ∧
      getFile (download_rhcos env j w eff).2.1.localFiles j.path = none ∧
      (download_rhcos env j w eff).2.2.decompresses = eff.decompresses) := by
  unfold download_rhcos
  rw [h]
  simp only [Option.isSome_none, Bool.false_eq_true, if_false]
  by_cases hs : env.httpBodySize < minSizeBytes
  · rw [if_pos hs]
    refine ⟨by simp [Except.isOk, Except.toBool, hs], fun _ => ⟨rfl, ?_, rfl⟩⟩
    simp only []
    rw [getFile_setFile_ne w.localFiles (j.path ++ ".gz") j.path
      env.httpBodySize (path_ne_gz j.path)]
    exact h
  · rw [if_neg hs]
    refine ⟨by simp [Except.isOk, Except.toBool, hs], fun hc => absurd hc hs⟩

/-- Witness for C6: an empty world and a 5-byte response fail the size
check and leave no decompressed file. -/
theorem fetch_integrity_threshold_witness :
    (download_rhcos envStall jobA wEmpty effZero).1 =
      Except.error "RHCOS file size too small" ∧
    getFile (download_rhcos envStall jobA wEmpty effZero).2.1.localFiles
      jobA.path = none ∧
    (download_rhcos envStall jobA wEmpty effZero).2.2.decompresses =
      effZero.decompresses :=
  (fetch_integrity_threshold envStall jobA wEmpty effZero (by rfl)).2
    (by decide)

/-- Claim C10: if `modify_image_attribute` fails right after a new image is
registered, `register_image` raises, the image exists but is private, and a
re-run returns the existing image's id through the name-based skip without
re-attempting the launch-permission update, so the image stays private. -/
theorem register_image_visibility_not_atomic (env : Env) (j : Job)
    (w : World) (eff : Effects) (sid : String) (w1 : World) (eff1 : Effects)
    (w2 : World) (eff2 : Effects)
    (himp : import_snapshot env j w eff = (Except.ok sid, w1, eff1))
    (hnoimg : describeImagesByName w.images ("rhcos-" ++ j.rhcosVersion) = [])
    (hfail : env.modifyAttrFails = true)
    (hw2 : w2 = { w1 with images :=
      w1.images ++ [⟨env.newImageId, "rhcos-" ++ j.rhcosVersion, false⟩] })
    (heff2 : eff2 = { eff1 with registers := eff1.registers + 1,
                                modifyAttrs := eff1.modifyAttrs + 1 }) :
    register_image env j w eff =
      (Except.error "modify_image_attribute failed", w2, eff2) ∧
    register_image env j w2 eff2 = (Except.ok env.newImageId, w2, eff2) ∧
    (⟨env.newImageId, "rhcos-" ++ j.rhcosVersion, false⟩ : Image) ∈ w2.images := by
  subst hw2
  subst heff2
  have hfr := import_snapshot_frame env j w eff
  rw [himp] at hfr
  have hstate := import_snapshot_ok_state env j w eff sid w1 eff1 himp
  refine ⟨?_, ?_, List.mem_append.mpr (Or.inr (List.mem_singleton.mpr rfl))⟩
  · unfold register_image
    rw [himp]
    simp only []
    rw [hfr.1, hnoimg]
    simp only []
    rw [if_pos hfail]
  · have hup2 : upload_rhcos env j
        { w1 with images := w1.images ++
          [⟨env.newImageId, "rhcos-" ++ j.rhcosVersion, false⟩] }
        { eff1 with registers := eff1.registers + 1,
                    modifyAttrs := eff1.modifyAttrs + 1 } =
        (Except.ok (),
         { w1 with images := w1.images ++
           [⟨env.newImageId, "rhcos-" ++ j.rhcosVersion, false⟩] },
         { eff1 with registers := eff1.registers + 1,
                     modifyAttrs := eff1.modifyAttrs + 1 }) := by
      unfold upload_rhcos
      rw [if_pos hstate.2]
    obtain ⟨s, t, hds⟩ : ∃ s t,
        describeSnapshotsByTag w1.snapshots j.rhcosVersion = s :: t := by
      cases hq : describeSnapshotsByTag w1.snapshots j.rhcosVersion with
      | nil => exact absurd hq hstate.1
      | cons a b => exact ⟨a, b, rfl⟩
    have him2 : import_snapshot env j
        { w1 with images := w1.images ++
          [⟨env.newImageId, "rhcos-" ++ j.rhcosVersion, false⟩] }
        { eff1 with registers := eff1.registers + 1,
                    modifyAttrs := eff1.modifyAttrs + 1 } =
        (Except.ok s.sid,
         { w1 with images := w1.images ++
           [⟨env.newImageId, "rhcos-" ++ j.rhcosVersion, false⟩] },
         { eff1 with registers := eff1.registers + 1,
                     modifyAttrs := eff1.modifyAttrs + 1 }) := by
      unfold import_snapshot
      rw [hup2]
      simp only []
      rw [show describeSnapshotsByTag
        ({ w1 with images := w1.images ++
          [⟨env.newImageId, "rhcos-" ++ j.rhcosVersion, false⟩] } : World).snapshots
        j.rhcosVersion = s :: t from hds]
    unfold register_image
    rw [him2]
    simp only []
    have hdi : describeImagesByName
        ({ w1 with images := w1.images ++
          [⟨env.newImageId, "rhcos-" ++ j.rhcosVersion, false⟩] } : World).images
        ("rhcos-" ++ j.rhcosVersion) =
        [⟨env.newImageId, "rhcos-" ++ j.rhcosVersion, false⟩] := by
      show describeImagesByName
        (w1.images ++ [⟨env.newImageId, "rhcos-" ++ j.rhcosVersion, false⟩])
        ("rhcos-" ++ j.rhcosVersion) = _
      rw [describeImagesByName_append, hfr.1, hnoimg,
        describeImagesByName_matching_singleton _ _ rfl]
      rfl
    rw [hdi]

/-- Witness for C10: a failing permission update leaves a private image that
a re-run returns unchanged. -/
theorem register_image_visibility_not_atomic_witness :
    register_image envDoneFail jobA wSnap effZero =
      (Except.error "modify_image_attribute failed",
       { wSnap with images := wSnap.images ++ [⟨"ami-1", "rhcos-4.7.7", false⟩] },
       { effZero with registers := 1, modifyAttrs := 1 }) ∧
    register_image envDoneFail jobA
      { wSnap with images := wSnap.images ++ [⟨"ami-1", "rhcos-4.7.7", false⟩] }
      { effZero with registers := 1, modifyAttrs := 1 } =
      (Except.ok "ami-1",
       { wSnap with images := wSnap.images ++ [⟨"ami-1", "rhcos-4.7.7", false⟩] },
       { effZero with registers := 1, modifyAttrs := 1 }) := by
  have h := register_image_visibility_not_atomic envDoneFail jobA wSnap effZero
    snapA.sid wSnap effZero
    { wSnap with images := wSnap.images ++ [⟨"ami-1", "rhcos-4.7.7", false⟩] }
    { effZero with registers := 1, modifyAttrs := 1 }
    (by rfl) (by rfl) (by rfl) (by rfl) (by rfl)
  exact ⟨h.1, h.2.1⟩

/-- Claim C7: on the spec's example upgrade-graph nodes with requested
prefix "4.7", discovery selects exactly ["4.7.3", "4.7.10"] — rejecting the
pre-release form and the version whose major.minor matches no requested
prefix, preserving first occurrence — and orders the result
["4.7.10", "4.7.3"], descending by numeric (major, minor, patch) tuple
rather than lexically. -/
theorem discovery_filter_order :
    collectVersions (fun _ => ["4.7.3", "4.7.10", "4.7.2-rc.1", "4.8.0"])
      ["4.7"] = ["4.7.3", "4.7.10"] ∧
    discoverVersions (fun _ => ["4.7.3", "4.7.10", "4.7.2-rc.1", "4.8.0"])
      ["4.7"] = ["4.7.10", "4.7.3"] := by
  constructor <;> decide

/-- Claim C8: the per-version loop records an outcome for every discovered
version — whatever each version's pipeline returns or raises, the next
versions are still processed — and the process exit code is 0 regardless of
per-version failures. -/
theorem batch_failure_isolation
    (pipeline : String → World → Effects →
      Except String String × World × Effects)
    (versions : List String) (w : World) (eff : Effects) :
    (runMain pipeline versions w eff).1 = 0 ∧
    ((runMain pipeline versions w eff).2.2.2).map Prod.fst = versions :=
  ⟨rfl, mainLoop_processes_all pipeline versions w eff⟩

/-! ### String and resolver lemmas for the memoized properties -/

theorem string_append_ne_empty_right (a b : String) (h : b ≠ "") :
    a ++ b ≠ "" := by
  obtain ⟨la⟩ := a
  obtain ⟨lb⟩ := b
  intro he
  apply h
  have h2 : String.mk (la ++ lb) = String.mk [] := he
  injection h2 with h3
  have hlb : lb = [] := (List.append_eq_nil.mp h3).2
  rw [hlb]

theorem string_append_ne_empty_left (a b : String) (h : a ≠ "") :
    a ++ b ≠ "" := by
  obtain ⟨la⟩ := a
  obtain ⟨lb⟩ := b
  intro he
  apply h
  have h2 : String.mk (la ++ lb) = String.mk [] := he
  injection h2 with h3
  have hla : la = [] := (List.append_eq_nil.mp h3).1
  rw [hla]

theorem findMachineOsAux_ne_empty (l : List Char) (v : String)
    (h : findMachineOsAux l = some v) : v ≠ "" := by
  induction l with
  | nil => exact absurd h (by simp [findMachineOsAux])
  | cons c cs ih =>
    unfold findMachineOsAux at h
    cases hd : dropPre "machine-os ".toList (c :: cs) with
    | none =>
      rw [hd] at h
      simp only [] at h
      exact ih h
    | some rest =>
      rw [hd] at h
      simp only [] at h
      by_cases hg : (takeVerChars rest).isEmpty
      · rw [if_pos hg] at h
        exact ih h
      · rw [if_neg hg] at h
        simp only [Option.some.injEq] at h
        intro he
        rw [← h] at he
        have hnil : takeVerChars rest = [] := by
          have h2 : String.mk (takeVerChars rest) = String.mk [] := he
          injection h2
        rw [hnil] at hg
        exact hg rfl

theorem findMachineOs_ne_empty (s v : String)
    (h : findMachineOs s = some v) : v ≠ "" :=
  findMachineOsAux_ne_empty s.toList v h

theorem truthy_some (s : String) (h : s ≠ "") : truthy (some s) = true := by
  simp [truthy, h]

/-! ### Evaluation lemmas for the lazy properties -/

theorem getData_cached (body : String) (f : ReleaseFields) (c : MemoCtr)
    (h : truthy f.sData = true) :
    getData body f c = (pyStr f.sData, f, c) := by
  simp [getData, h]

theorem getData_fresh (body : String) (f : ReleaseFields) (c : MemoCtr)
    (h : truthy f.sData = false) :
    getData body f c =
      (body, { f with sData := some body },
       { c with fetches := c.fetches + 1 }) := by
  simp [getData, h]

theorem getRhcosVersion_cached (body : String) (f : ReleaseFields)
    (c : MemoCtr) (h : truthy f.sVersion = true) :
    getRhcosVersion body f c = (f.sVersion, f, c) := by
  simp [getRhcosVersion, h]

theorem getRhcosVersion_fresh (body v : String) (c : MemoCtr)
    (hv : findMachineOs body = some v) :
    getRhcosVersion body initFields c =
      (some v, ⟨some body, some v, none, none, none⟩,
       ⟨c.fetches + 1, c.searches + 1⟩) := by
  simp [getRhcosVersion, truthy, initFields, getData, hv]

theorem getRhcosVersion_notfound (body : String) (c : MemoCtr)
    (hv : findMachineOs body = none) :
    getRhcosVersion body initFields c =
      (none, ⟨some body, none, none, none, none⟩,
       ⟨c.fetches + 1, c.searches + 1⟩) := by
  simp [getRhcosVersion, truthy, initFields, getData, hv]

theorem getRhcosFilename_cached (body : String) (f : ReleaseFields)
    (c : MemoCtr) (h : truthy f.sFilename = true) :
    getRhcosFilename body f c = (pyStr f.sFilename, f, c) := by
  simp [getRhcosFilename, h]

theorem getRhcosFilename_fresh (body v : String) (c : MemoCtr)
    (hv : findMachineOs body = some v) :
    getRhcosFilename body initFields c =
      ("rhcos-" ++ v ++ "-aws.x86_64.vmdk",
       ⟨some body, some v, some ("rhcos-" ++ v ++ "-aws.x86_64.vmdk"),
        none, none⟩,
       ⟨c.fetches + 1, c.searches + 1⟩) := by
  unfold getRhcosFilename
  rw [getRhcosVersion_fresh body v c hv]
  simp [truthy, initFields, pyStr]

theorem getRhcosFilename_notfound (body : String) (c : MemoCtr)
    (hv : findMachineOs body = none) :
    getRhcosFilename body initFields c =
      ("rhcos-" ++ "None" ++ "-aws.x86_64.vmdk",
       ⟨some body, none, some ("rhcos-" ++ "None" ++ "-aws.x86_64.vmdk"),
        none, none⟩,
       ⟨c.fetches + 1, c.searches + 1⟩) := by
  unfold getRhcosFilename
  rw [getRhcosVersion_notfound body c hv]
  simp [truthy, initFields, pyStr]

theorem getRhcosFilename_after_version (body v : String) (f : ReleaseFields)
    (c : MemoCtr) (hf : f.sFilename = none) (hfv : f.sVersion = some v)
    (hvne : v ≠ "") :
    getRhcosFilename body f c =
      ("rhcos-" ++ v ++ "-aws.x86_64.vmdk",
       { f with sFilename := some ("rhcos-" ++ v ++ "-aws.x86_64.vmdk") },
       c) := by
  have hc := getRhcosVersion_cached body f c
    (by rw [hfv]; exact truthy_some v hvne)
  simp [getRhcosFilename, truthy, hf, hc, hfv, pyStr]

theorem getRhcosPath_cached (body tmp : String) (f : ReleaseFields)
    (c : MemoCtr) (h : truthy f.sPath = true) :
    getRhcosPath body tmp f c = (pyStr f.sPath, f, c) := by
  simp [getRhcosPath, h]

theorem getRhcosPath_fresh (body tmp v : String) (c : MemoCtr)
    (hv : findMachineOs body = some v) :
    getRhcosPath body tmp initFields c =
      (tmp ++ "/" ++ ("rhcos-" ++ v ++ "-aws.x86_64.vmdk"),
       ⟨some body, some v, some ("rhcos-" ++ v ++ "-aws.x86_64.vmdk"),
        some (tmp ++ "/" ++ ("rhcos-" ++ v ++ "-aws.x86_64.vmdk")), none⟩,
       ⟨c.fetches + 1, c.searches + 1⟩) := by
  unfold getRhcosPath
  rw [getRhcosFilename_fresh body v c hv]
  simp [truthy, initFields]

theorem getRhcosUrl_cached (body rel : String) (f : ReleaseFields)
    (c : MemoCtr) (h : truthy f.sUrl = true) :
    getRhcosUrl body rel f c = (Except.ok (pyStr f.sUrl), f, c) := by
  simp [getRhcosUrl, h]

theorem getRhcosUrl_fresh (body rel v : String) (c : MemoCtr)
    (hv : findMachineOs body = some v) (hvne : v ≠ "") :
    getRhcosUrl body rel initFields c =
      (Except.ok (urlBase ++ "/" ++ ("rhcos-" ++ majMin rel) ++ "/" ++ v
         ++ "/" ++ "x86_64" ++ "/"
         ++ ("rhcos-" ++ v ++ "-aws.x86_64.vmdk" ++ ".gz")),
       ⟨some body, some v, some ("rhcos-" ++ v ++ "-aws.x86_64.vmdk"), none,
        some (urlBase ++ "/" ++ ("rhcos-" ++ majMin rel) ++ "/" ++ v
         ++ "/" ++ "x86_64" ++ "/"
         ++ ("rhcos-" ++ v ++ "-aws.x86_64.vmdk" ++ ".gz"))⟩,
       ⟨c.fetches + 1, c.searches + 1⟩) := by
  have h2 := getRhcosFilename_after_version body v
    ⟨some body, some v, none, none, none⟩ ⟨c.fetches + 1, c.searches + 1⟩
    rfl rfl hvne
  unfold getRhcosUrl
  rw [getRhcosVersion_fresh body v c hv]
  simp [truthy, initFields, h2]

theorem getRhcosUrl_notfound (body rel : String) (c : MemoCtr)
    (hv : findMachineOs body = none) :
    (getRhcosUrl body rel initFields c).1 =
      Except.error
        "TypeError: sequence item 2: expected str instance, NoneType found" := by
  unfold getRhcosUrl
  rw [getRhcosVersion_notfound body c hv]
  simp [truthy, initFields]

/-- Counterexample to C5 as stated: on a metadata text without the token
the resolver returns `none` without raising, but the downstream filename
does not remain unset — one access computes and caches
`"rhcos-None-aws.x86_64.vmdk"` (Python formats `None` into the string). -/
theorem resolver_notfound_counterexample :
    (getRhcosVersion "no token here" initFields ⟨0, 0⟩).1 = none ∧
    (getRhcosFilename "no token here" initFields ⟨0, 0⟩).2.1.sFilename =
      some "rhcos-None-aws.x86_64.vmdk" ∧
    (getRhcosFilename "no token here" initFields ⟨0, 0⟩).2.1.sFilename ≠
      none := by
  refine ⟨?_, ?_, ?_⟩ <;> decide

/-- Claim C5 (amended): when the metadata text has no line matching the
artifact-version token, the resolver returns a not-found `none` that is
logged and raises nothing, and `_rhcos_version` stays unset; but the
downstream derived fields do not remain unset and the release is not
skipped: a filename (or path) access computes and caches a string with
`"None"` interpolated, and a source-URL access raises a `TypeError` that
propagates to the per-version loop.  -/
theorem resolver_notfound_behavior (body tmp rel : String) (c : MemoCtr)
    (hb : findMachineOs body = none) :
    (getRhcosVersion body initFields c).1 = none ∧
    (getRhcosVersion body initFields c).2.1.sVersion = none ∧
    (getRhcosFilename body initFields c).1 =
      "rhcos-" ++ "None" ++ "-aws.x86_64.vmdk" ∧
    (getRhcosFilename body initFields c).2.1.sFilename =
      some ("rhcos-" ++ "None" ++ "-aws.x86_64.vmdk") ∧
    (getRhcosPath body tmp initFields c).1 =
      tmp ++ "/" ++ ("rhcos-" ++ "None" ++ "-aws.x86_64.vmdk") ∧
    (getRhcosUrl body rel initFields c).1 =
      Except.error
        "TypeError: sequence item 2: expected str instance, NoneType found" := by
  have h1 := getRhcosVersion_notfound body c hb
  have h2 := getRhcosFilename_notfound body c hb
  refine ⟨by rw [h1], by rw [h1], by rw [h2], by rw [h2], ?_,
    getRhcosUrl_notfound body rel c hb⟩
  unfold getRhcosPath
  rw [h2]
  simp [truthy, initFields]

/-- Witness for the amended C5 at a concrete metadata text. -/
theorem resolver_notfound_behavior_witness :
    findMachineOs "no token here" = none ∧
    (getRhcosUrl "no token here" "4.7" initFields ⟨0, 0⟩).1 =
      Except.error
        "TypeError: sequence item 2: expected str instance, NoneType found" :=
  ⟨by decide,
   (resolver_notfound_behavior "no token here" "/tmp" "4.7" ⟨0, 0⟩
     (by decide)).2.2.2.2.2⟩

/-- Counterexample to C9 as stated: with an empty release-metadata response
the `data` property's `if not self._data` guard sees a falsy cache, so a
second access performs the HTTP GET again — the release metadata text is
computed twice on one job instance. -/
theorem memoization_counterexample :
    ((getData "" (getData "" initFields ⟨0, 0⟩).2.1
        (getData "" initFields ⟨0, 0⟩).2.2).2.2).fetches = 2 := by decide

/-- Claim C9 (amended): the lazy caching is guarded by Python falsiness and
so memoizes only truthy values: for a non-empty metadata text whose
artifact version resolves, each derived field (metadata text, version,
filename, path, URL) is computed at most once — a second access returns the
first access's value with the attribute state and both I/O counters
unchanged; a falsy computed value (empty text, unresolved version) is not
cached and its computation, I/O included, repeats on every access. -/
theorem memoization_truthy (body tmp rel v : String) (c : MemoCtr)
    (hb : body ≠ "") (hv : findMachineOs body = some v) :
    (getData body (getData body initFields c).2.1
       (getData body initFields c).2.2 = getData body initFields c) ∧
    (getRhcosVersion body (getRhcosVersion body initFields c).2.1
       (getRhcosVersion body initFields c).2.2 =
       getRhcosVersion body initFields c) ∧
    (getRhcosFilename body (getRhcosFilename body initFields c).2.1
       (getRhcosFilename body initFields c).2.2 =
       getRhcosFilename body initFields c) ∧
    (getRhcosPath body tmp (getRhcosPath body tmp initFields c).2.1
       (getRhcosPath body tmp initFields c).2.2 =
       getRhcosPath body tmp initFields c) ∧
    (getRhcosUrl body rel (getRhcosUrl body rel initFields c).2.1
       (getRhcosUrl body rel initFields c).2.2 =
       getRhcosUrl body rel initFields c) := by
  have hvne := findMachineOs_ne_empty body v hv
  have hfnne : ("rhcos-" ++ v ++ "-aws.x86_64.vmdk") ≠ "" :=
    string_append_ne_empty_left _ _
      (string_append_ne_empty_left _ _ (by decide))
  refine ⟨?_, ?_, ?_, ?_, ?_⟩
  · rw [getData_fresh body initFields c rfl]
    exact getData_cached body _ _ (truthy_some body hb)
  · rw [getRhcosVersion_fresh body v c hv]
    exact getRhcosVersion_cached body _ _ (truthy_some v hvne)
  · rw [getRhcosFilename_fresh body v c hv]
    exact getRhcosFilename_cached body _ _ (truthy_some _ hfnne)
  · rw [getRhcosPath_fresh body tmp v c hv]
    exact getRhcosPath_cached body tmp _ _
      (truthy_some _ (string_append_ne_empty_right _ _ hfnne))
  · rw [getRhcosUrl_fresh body rel v c hv hvne]
    exact getRhcosUrl_cached body rel _ _
      (truthy_some _ (string_append_ne_empty_right _ _
        (string_append_ne_empty_right _ _ (by decide))))

/-- Witness for the amended C9 at a concrete resolving metadata text. -/
theorem memoization_truthy_witness :
    ("machine-os 4.7.7" : String) ≠ "" ∧
    findMachineOs "machine-os 4.7.7" = some "4.7.7" ∧
    getData "machine-os 4.7.7"
      (getData "machine-os 4.7.7" initFields ⟨0, 0⟩).2.1
      (getData "machine-os 4.7.7" initFields ⟨0, 0⟩).2.2 =
      getData "machine-os 4.7.7" initFields ⟨0, 0⟩ :=
  ⟨by decide, by decide,
   (memoization_truthy "machine-os 4.7.7" "/tmp" "4.7" "4.7.7" ⟨0, 0⟩
     (by decide) (by decide)).1⟩

end RhcosImport
